import Mathlib

/-!
Verification development for the Linearizer repository
(`linearizer/transform.py`, `linearizer/utils.py`, `linearizer/linearizer.py`).

Shallow embedding conventions:
* Numeric data is embedded in a linear ordered field `K`; the concrete program
  runs on IEEE floats, whose non-NaN, finite values we model by `ℝ` (and we use
  `ℚ` to evaluate the executable definitions on concrete inputs).  `K` has no
  NaN or infinity, so `np.isfinite` is identically true and `np.isnan` is
  identically false on embedded data.
* Python exceptions are modelled by `Except String`; the string is the message.
* `scipy.optimize.curve_fit` is an external collaborator: it is modelled by an
  oracle argument of type `FitOracle` returning `none` exactly when the fit
  raises `RuntimeError` (non-convergence) and `some (a, b)` when it converges
  to the parameter estimates `a`, `b`.
* `warnings.catch_warnings`/`simplefilter` have no observable effect on the
  returned values, so the `suppress_warning` flag is carried but inert.
-/

set_option maxRecDepth 4000

/-! ## transform.py -/

/-- A transformer class (the Python class object itself, e.g. `Abs`).
`validate_input` models `BaseTransformer.validate_input` and `call` models the
two-parameter `__call__(self, x, a, b)` shared by every transformer in
`transform.py` (`get_params` inspects that signature and always yields
`[a, b]`, so the fitted parameter vector is a pair). -/
structure TransformerClass (K : Type) where
  validate_input : List K → Bool
  call : K → K → K → K

/-- `get_params`: the free parameter names of `__call__`, excluding `x`. -/
def TransformerClass.get_params {K : Type} (_ : TransformerClass K) : List String :=
  ["a", "b"]

/-- Elementwise evaluation of `__call__(x, a, b)` with parameters `a`, `b`
bound, over a whole data column. -/
def TransformerClass.applyP {K : Type} (c : TransformerClass K) (a b : K)
    (x : List K) : List K :=
  x.map (fun v => c.call v a b)

/-- A transformer instance: its class plus the mutable `self.params` slot,
which is `None` until `set_params` is called with the fitted values. -/
structure TransformerObj (K : Type) where
  cls : TransformerClass K
  params : Option (K × K)

/-- `BaseTransformer.set_params`: store the fitted parameter dictionary. -/
def TransformerObj.set_params {K : Type} (t : TransformerObj K) (p : K × K) :
    TransformerObj K :=
  { t with params := some p }

/-- `BaseTransformer.transform`: raises when `self.params is None`, otherwise
evaluates `__call__` with the stored parameters bound. -/
def TransformerObj.transform {K : Type} (t : TransformerObj K) (x : List K) :
    Except String (List K) :=
  match t.params with
  | none => .error "No parameter values, call the set_params method first with the fitted parameter value."
  | some (a, b) => .ok (t.cls.applyP a b x)

/-- An entry of a transformation catalog as the dynamically-typed Python code
sees it: either a class object or an already-constructed instance.
`DEFAULT_TRANSFORM` in `transform.py` is built from instances. -/
inductive CatalogEntry (K : Type) where
  | cls (c : TransformerClass K)
  | inst (t : TransformerObj K)

/-- The statement `trf = trf()` in `find_best_transformation`.  Applied to a
class object it constructs a fresh unfitted instance; applied to an instance
it invokes `__call__` with no arguments, which raises `TypeError` because
`__call__(self, x, a, b)` requires three positional arguments. -/
def instantiate {K : Type} : CatalogEntry K → Except String (TransformerObj K)
  | .cls c => .ok { cls := c, params := none }
  | .inst _ => .error "TypeError: __call__ missing 3 required positional arguments: x, a and b"

namespace Transform

/-- `_Power.__call__`: for positive class exponent `n` it is `np.power(a*x+b, n)`,
and for non-positive `n` it is `1 / (np.power(a*x+b, -n) + 1e-15)`.
`np.power` on floats is modelled by `Real.rpow`. -/
noncomputable def powerCall (n : ℚ) (x a b : ℝ) : ℝ :=
  if 0 < n then (a * x + b) ^ ((n : ℝ))
  else 1 / ((a * x + b) ^ (((-n : ℚ) : ℝ)) + 1e-15)

/-- `class Abs`: `np.abs(a * x + b)`. -/
noncomputable def Abs : TransformerClass ℝ :=
  { validate_input := fun _ => true, call := fun x a b => |a * x + b| }

/-- `class Loge`: `np.log(a * x + b)`. -/
noncomputable def Loge : TransformerClass ℝ :=
  { validate_input := fun _ => true, call := fun x a b => Real.log (a * x + b) }

/-- `class Log2`: `np.log2(a * x + b)`. -/
noncomputable def Log2 : TransformerClass ℝ :=
  { validate_input := fun _ => true, call := fun x a b => Real.logb 2 (a * x + b) }

/-- `class Log10`: `np.log10(a * x + b)`. -/
noncomputable def Log10 : TransformerClass ℝ :=
  { validate_input := fun _ => true, call := fun x a b => Real.logb 10 (a * x + b) }

/-- `class Exp`: `np.exp(a * x + b)`. -/
noncomputable def Exp : TransformerClass ℝ :=
  { validate_input := fun _ => true, call := fun x a b => Real.exp (a * x + b) }

/-- `class Power2 (_Power with n = 2)`. -/
noncomputable def Power2 : TransformerClass ℝ :=
  { validate_input := fun _ => true, call := fun x a b => powerCall 2 x a b }

/-- `class Power3 (_Power with n = 3)`. -/
noncomputable def Power3 : TransformerClass ℝ :=
  { validate_input := fun _ => true, call := fun x a b => powerCall 3 x a b }

/-- `class Power4 (_Power with n = 4)`. -/
noncomputable def Power4 : TransformerClass ℝ :=
  { validate_input := fun _ => true, call := fun x a b => powerCall 4 x a b }

/-- `class Sqrt (_Power with n = 1 / 2)`. -/
noncomputable def Sqrt : TransformerClass ℝ :=
  { validate_input := fun _ => true, call := fun x a b => powerCall (1 / 2) x a b }

/-- `class Inv (_Power with n = -1)`. -/
noncomputable def Inv : TransformerClass ℝ :=
  { validate_input := fun _ => true, call := fun x a b => powerCall (-1) x a b }

/-- `class InvPower2 (_Power with n = -2)`. -/
noncomputable def InvPower2 : TransformerClass ℝ :=
  { validate_input := fun _ => true, call := fun x a b => powerCall (-2) x a b }

/-- `DEFAULT_TRANSFORM = [Abs(), Loge(), Exp(), Power2(), Power3(), Sqrt(),
Inv(), InvPower2()]` — a module-level list of already-constructed (unfitted)
instances, not of class objects. -/
noncomputable def DEFAULT_TRANSFORM : List (CatalogEntry ℝ) :=
  [.inst { cls := Abs, params := none },
   .inst { cls := Loge, params := none },
   .inst { cls := Exp, params := none },
   .inst { cls := Power2, params := none },
   .inst { cls := Power3, params := none },
   .inst { cls := Sqrt, params := none },
   .inst { cls := Inv, params := none },
   .inst { cls := InvPower2, params := none }]

end Transform

/-! ## utils.py

Generic over a linear ordered field `K`, which models the non-NaN finite
floats; all definitions here are computable so they can be evaluated at
`K := ℚ`. -/

section Utils

variable {K : Type} [LinearOrderedField K]

/-- `check_binary_label(y)`: raises unless `set(y) == set([0, 1])`, i.e. unless
every element of `y` is `0` or `1` and both values actually occur. -/
def check_binary_label (y : List K) : Except String Unit :=
  if 0 ∈ y ∧ 1 ∈ y ∧ ∀ v ∈ y, v = 0 ∨ v = 1 then .ok ()
  else .error "The label must be binary 0 or 1."

/-- `drop_na(x, y, according)`: keeps the index positions where the selected
array(s) are not NaN.  `K` models the non-NaN floats, so `np.isnan` is
identically false here and every position is kept; the invalid-`according`
error is still modelled. -/
def drop_na (x y : List K) (according : String) : Except String (List K × List K) :=
  if according = "x" ∨ according = "y" ∨ according = "both" then .ok (x, y)
  else .error "According should be one of x, y, both"

/-- Distinct values of `l`, sorted ascending — the group keys produced by
`pd.Series(y).groupby(keys)` (pandas sorts group keys by default). -/
def uniqueSorted (l : List K) : List K :=
  l.dedup.insertionSort (· ≤ ·)

/-- Mean of the `vals` entries whose aligned `keys` entry equals `k`
(the groupwise `.mean()`). -/
def groupMean (keys vals : List K) (k : K) : K :=
  let sel := ((keys.zip vals).filter (fun p => p.1 = k)).map (fun p => p.2)
  sel.sum / (sel.length : K)

/-- `pd.Series(vals).groupby(keys).mean()` followed by
`(pos_pct.index.values, pos_pct.values)`: the sorted distinct keys paired with
the mean of `vals` inside each group. -/
def groupbyMean (keys vals : List K) : List K × List K :=
  (uniqueSorted keys, (uniqueSorted keys).map (groupMean keys vals))

/-- Minimum of a data column (`x.min()`). -/
def listMin (l : List K) : K := l.foldl min (l.headD 0)

/-- Maximum of a data column (`x.max()`). -/
def listMax (l : List K) : K := l.foldl max (l.headD 0)

/-- The `j`-th cut edge produced by `pd.cut(x, bins)` with an integer `bins`:
`np.linspace(x.min(), x.max(), bins + 1)`.  (Modelled from the pandas
documentation: `pd.cut` partitions the range of `x` into `bins` equal-width
right-closed intervals; the 0.1% left-edge padding it applies exists only so
that the minimum value is included, which `cutIndex` models directly.) -/
def cutEdge (mn mx : K) (bins : ℕ) (j : ℕ) : K :=
  mn + (mx - mn) * (j : K) / (bins : K)

/-- Index of the equal-width interval `(edge j, edge (j+1)]` that `v` falls
into, with the minimum value assigned to interval `0`. -/
def cutIndex (mn mx : K) (bins : ℕ) (v : K) : ℕ :=
  (((List.range bins).find? (fun j => decide (v ≤ cutEdge mn mx bins (j + 1)))).getD
    (bins - 1))

/-- The per-element interval representative used in the `else` branch of
`as_positive_rate`: the containing interval's `.left`, `.right`, or midpoint
`(left + right) / 2`, selected by `interval_value`; any other choice raises. -/
def intervalReps (interval_value : String) (mn mx : K) (bins : ℕ) (x : List K) :
    Except String (List K) :=
  if interval_value = "left" then
    .ok (x.map (fun v => cutEdge mn mx bins (cutIndex mn mx bins v)))
  else if interval_value = "right" then
    .ok (x.map (fun v => cutEdge mn mx bins (cutIndex mn mx bins v + 1)))
  else if interval_value = "mean" then
    .ok (x.map (fun v =>
      (cutEdge mn mx bins (cutIndex mn mx bins v) +
        cutEdge mn mx bins (cutIndex mn mx bins v + 1)) / 2))
  else .error "Only left, right, mean is supported."

/-- `as_positive_rate(x, y, bins, interval_value)`: check the label is binary,
then either group by the raw distinct values of `x` (when there are at most
`bins` of them) or by the representative of the containing equal-width
interval, and return the group keys with the positive rate (mean of `y`)
per group.  (`check_numerical` is a dtype check, vacuous in this typed
embedding.) -/
def as_positive_rate (x y : List K) (bins : ℕ) (interval_value : String) :
    Except String (List K × List K) :=
  match check_binary_label y with
  | .error e => .error e
  | .ok _ =>
    if x.dedup.length ≤ bins then
      .ok (groupbyMean x y)
    else
      match intervalReps interval_value (listMin x) (listMax x) bins x with
      | .error e => .error e
      | .ok reps => .ok (groupbyMean reps y)

/-- A call of `as_positive_rate` that omits `interval_value`, taking the
declared default `interval_value='mean'`. -/
def as_positive_rate_default (x y : List K) (bins : ℕ) :
    Except String (List K × List K) :=
  as_positive_rate x y bins "mean"

/-- `EPILSON = 1e-15` (the clamping constant of `_odds`, spelled as in the
source). -/
def EPILSON : K := 1e-15

/-- `_odds(p) = clip(p, ε, 1-ε) / (1 - clip(p, ε, 1-ε))` elementwise. -/
def _odds (p : List K) : List K :=
  p.map (fun v =>
    let c := min (max v EPILSON) (1 - EPILSON)
    c / (1 - c))

end Utils

/-- `_logodds(p) = np.log(_odds(p))` elementwise (float `log`, so over `ℝ`). -/
noncomputable def _logodds (p : List ℝ) : List ℝ :=
  (_odds p).map Real.log

/-- The `transform_y` argument of `preprocess`: a name from `_TRANSFORMS` or a
user function (any other runtime type raises, which the embedding's typing
precludes). -/
inductive TransformYArg where
  | str (s : String)
  | fn (f : List ℝ → List ℝ)

/-- `_TRANSFORMS = dict(odds = _odds, logodds = _logodds)`. -/
noncomputable def _TRANSFORMS : List (String × (List ℝ → List ℝ)) :=
  [("odds", _odds), ("logodds", _logodds)]

/-- `preprocess(x, y, binary_label, bins, transform_y, interval_value,
ignore_na)`: optional positive-rate bucketing, then optional target transform,
then optional NA elimination, in that fixed order. -/
noncomputable def preprocess (x y : List ℝ) (binary_label : Bool) (bins : ℕ)
    (transform_y : Option TransformYArg) (interval_value : String)
    (ignore_na : Bool) : Except String (List ℝ × List ℝ) :=
  match (if binary_label then as_positive_rate x y bins interval_value
         else .ok (x, y)) with
  | .error e => .error e
  | .ok (x1, y1) =>
    match ((match transform_y with
           | none => .ok y1
           | some (.str s) =>
             match _TRANSFORMS.lookup s with
             | none => .error "Only odds, logodds is supported."
             | some f => .ok (f y1)
           | some (.fn f) => .ok (f y1)) : Except String (List ℝ)) with
    | .error e => .error e
    | .ok y2 => if ignore_na then drop_na x1 y2 "both" else .ok (x1, y2)

/-! ## linearizer.py — metrics -/

section Stats

variable {K : Type} [LinearOrderedField K]

/-- Sum of pairwise products over two aligned sequences. -/
def prodSum (u v : List K) : K :=
  ((u.zip v).map (fun p => p.1 * p.2)).sum

/-- Arithmetic mean of a sequence (Lean division by zero is `0`, matching the
degenerate-input policy of the metric layer: degeneracies yield the underlying
formula's degenerate value rather than an exception). -/
def meanS (l : List K) : K := l.sum / (l.length : K)

/-- The sequence centered at its mean. -/
def centered (l : List K) : List K := l.map (fun v => v - meanS l)

/-- Centered cross sum `Σ (xᵢ - x̄)(yᵢ - ȳ)`, the shared core of the Pearson
correlation of `np.corrcoef` and of `linregress`'s `r_value`. -/
def ssxy (x y : List K) : K := prodSum (centered x) (centered y)

/-- `r_squared(x, y)`: the `r_value ** 2` of
`scipy.stats.linregress(x, y)`, i.e. the squared Pearson correlation
`(Σ (xᵢ-x̄)(yᵢ-ȳ))² / (Σ (xᵢ-x̄)² · Σ (yᵢ-ȳ)²)` (the `1/n` factors cancel). -/
def r_squared (x y : List K) : K :=
  (ssxy x y) ^ 2 / (ssxy x x * ssxy y y)

end Stats

/-- `corr(x, y) = abs(np.corrcoef(x, y)[0][1])`: the absolute Pearson
correlation `|Σ (xᵢ-x̄)(yᵢ-ȳ)| / sqrt(Σ (xᵢ-x̄)² · Σ (yᵢ-ȳ)²)`. -/
noncomputable def corr (x y : List ℝ) : ℝ :=
  |ssxy x y| / Real.sqrt (ssxy x x * ssxy y y)

/-- The `metric` argument of `find_best_transformation`: a name resolved
through `_METRICS`, or a user scoring function (any other runtime type raises,
which this typed embedding precludes). -/
inductive MetricArg where
  | str (s : String)
  | fn (f : List ℝ → List ℝ → ℝ)

/-- `_METRICS = dict(corr = corr, r2 = r_squared)`. -/
noncomputable def _METRICS : List (String × (List ℝ → List ℝ → ℝ)) :=
  [("corr", corr), ("r2", r_squared)]

/-- Step 1 of `find_best_transformation`: resolve the metric name through
`_METRICS`, raising on an unknown name; pass a function argument through. -/
noncomputable def resolveMetric : MetricArg → Except String (List ℝ → List ℝ → ℝ)
  | .str s =>
    match _METRICS.lookup s with
    | none => .error "Only supports the following metrics: corr, r2"
    | some f => .ok f
  | .fn f => .ok f

/-! ## linearizer.py — search engine -/

/-- The external `scipy.optimize.curve_fit` collaborator, as an oracle:
given the callable being fitted and the data, it returns `none` exactly when
nonlinear least squares raises `RuntimeError` (no convergence) and
`some (a, b)` when it converges to the estimates `a`, `b`. -/
def FitOracle (K : Type) := TransformerClass K → List K → List K → Option (K × K)

section Engine

variable {K : Type} [LinearOrderedField K]

/-- Largest-score element of a nonempty candidate list, earliest first on
ties.  This models `sorted(result, reverse=True)[0]`; on an exact score tie
the source compares the transformer objects themselves, which is an undefined
order (flagged in the design notes), so any tie choice refines it. -/
def selectMax (p : K × TransformerObj K) :
    List (K × TransformerObj K) → K × TransformerObj K
  | [] => p
  | q :: rest => selectMax (if p.1 < q.1 then q else p) rest

/-- `sorted(result, reverse=True)[0]` when `result` is nonempty, `None`
otherwise. -/
def selectBest : List (K × TransformerObj K) → Option (K × TransformerObj K)
  | [] => none
  | p :: rest => some (selectMax p rest)

/-- The catalog scan of `find_best_transformation`: for each entry, run
`trf = trf()`, skip it when `validate_input(x)` is false, drop it when
`curve_fit` raises `RuntimeError` (non-convergence), otherwise bind the
estimated parameters, score the transformed column, and keep the candidate
iff its score strictly exceeds `baseline + min_delta`.  Any other exception
(notably the `TypeError` from instantiating an instance entry) propagates. -/
def scanTransforms (x y : List K) (metric : List K → List K → K)
    (baseline min_delta : K) (oracle : FitOracle K) :
    List (CatalogEntry K) → Except String (List (K × TransformerObj K))
  | [] => .ok []
  | e :: rest =>
    match instantiate e with
    | .error s => .error s
    | .ok trf =>
      if trf.cls.validate_input x = false then
        scanTransforms x y metric baseline min_delta oracle rest
      else
        match oracle trf.cls x y with
        | none => scanTransforms x y metric baseline min_delta oracle rest
        | some est =>
          let trf2 := trf.set_params est
          let m := metric (trf2.cls.applyP est.1 est.2 x) y
          match scanTransforms x y metric baseline min_delta oracle rest with
          | .error s => .error s
          | .ok res =>
            .ok (if baseline + min_delta < m then (m, trf2) :: res else res)

/-- The body of `find_best_transformation` after catalog defaulting and metric
resolution: baseline on the untransformed pair, catalog scan, then either the
best qualifying candidate or the explicit `(None, None)` null result. -/
def find_best_transformation_core (x y : List K) (trfs : List (CatalogEntry K))
    (metric : List K → List K → K) (min_delta : K) (oracle : FitOracle K) :
    Except String (Option (K × TransformerObj K)) :=
  let baseline := metric x y
  match scanTransforms x y metric baseline min_delta oracle trfs with
  | .error e => .error e
  | .ok result => .ok (selectBest result)

end Engine

/-- `find_best_transformation(x, y, transformations, metric, min_delta,
suppress_warning)`.  `trfs = transformations or DEFAULT_TRANSFORM` (Python
`or`: `None` and the empty list are both falsy), then metric resolution, then
the scan.  `suppress_warning` only scopes `warnings.simplefilter` around the
fitting calls and has no effect on the returned value.  `None` for the
returned pair `(None, None)` is `Option.none`. -/
noncomputable def find_best_transformation (x y : List ℝ)
    (transformations : Option (List (CatalogEntry ℝ))) (metric : MetricArg)
    (min_delta : ℝ) (suppress_warning : Bool) (oracle : FitOracle ℝ) :
    Except String (Option (ℝ × TransformerObj ℝ)) :=
  let trfs := match transformations with
    | none => Transform.DEFAULT_TRANSFORM
    | some l => if l.isEmpty then Transform.DEFAULT_TRANSFORM else l
  let _ := suppress_warning
  match resolveMetric metric with
  | .error e => .error e
  | .ok mf => find_best_transformation_core x y trfs mf min_delta oracle

/-! ## linearizer.py — the Linearizer orchestrator -/

/-- A pandas DataFrame of named numeric columns, in column order. -/
abbrev Table := List (String × List ℝ)

/-- `X.columns`. -/
def columns (X : Table) : List String := X.map (fun p => p.1)

/-- `X[col]`; a missing column raises `KeyError`. -/
def getCol (X : Table) (c : String) : Except String (List ℝ) :=
  match X.find? (fun p => p.1 == c) with
  | none => .error "KeyError: column not found"
  | some p => .ok p.2

/-- `X[col] = v`: replace the values of column `c`. -/
def setCol (X : Table) (c : String) (v : List ℝ) : Table :=
  X.map (fun p => if p.1 = c then (c, v) else p)

/-- The `Linearizer` estimator's attribute state.  `__init__` stores exactly
the fields below (note: it accepts `min_delta` but never assigns
`self.min_delta`, so no such field exists); the fitted per-column mapping
`self.transformations` is only assigned by `fit`, modelled as an `Option`
(`check_is_fitted` tests for the attribute's existence). -/
structure Linearizer where
  cols : Option (List String)
  bins : ℕ
  binary_label : Bool
  transform_y : Option TransformYArg
  cand_trfs : Option (List (CatalogEntry ℝ))
  metric : MetricArg
  ignore_na : Bool
  suppress_warning : Bool
  copy : Bool
  transformations : Option (List (String × Option (TransformerObj ℝ)))

/-- `Linearizer.__init__(cols, binary_label, bins, transform_y,
transformations, metric, min_delta, ignore_na, suppress_warning, copy)`.
The `min_delta` argument is accepted and documented but never stored:
`__init__` assigns every other parameter to an attribute and drops this one,
so the constructed estimator does not depend on it. -/
def Linearizer.init (cols : Option (List String)) (binary_label : Bool)
    (bins : ℕ) (transform_y : Option TransformYArg)
    (transformations : Option (List (CatalogEntry ℝ))) (metric : MetricArg)
    (min_delta : ℝ) (ignore_na : Bool) (suppress_warning : Bool)
    (copy : Bool) : Linearizer :=
  let _ := min_delta
  { cols := cols
    bins := bins
    binary_label := binary_label
    transform_y := transform_y
    cand_trfs := transformations
    metric := metric
    ignore_na := ignore_na
    suppress_warning := suppress_warning
    copy := copy
    transformations := none }

/-- The per-column loop of `Linearizer.fit`: preprocess the column against the
target with the given `interval_value`, search for the best transformation
(the source's call site passes no `min_delta`, so the function default `0.0`
applies), and record the winning transformer or `None` under the column name. -/
noncomputable def fitCols (l : Linearizer) (X : Table) (y : List ℝ)
    (oracle : FitOracle ℝ) (interval_value : String) :
    List String → Except String (List (String × Option (TransformerObj ℝ)))
  | [] => .ok []
  | c :: rest =>
    match getCol X c with
    | .error e => .error e
    | .ok xcol =>
      match preprocess xcol y l.binary_label l.bins l.transform_y interval_value
          l.ignore_na with
      | .error e => .error e
      | .ok (x2, y2) =>
        match find_best_transformation x2 y2 l.cand_trfs l.metric 0
            l.suppress_warning oracle with
        | .error e => .error e
        | .ok r =>
          match fitCols l X y oracle interval_value rest with
          | .error e => .error e
          | .ok rs => .ok ((c, r.map (fun p => p.2)) :: rs)

/-- `Linearizer.fit` with the `interval_value` it hands to `preprocess` made
explicit, for comparison with the fixed choice the source makes. -/
noncomputable def Linearizer.fitWithInterval (l : Linearizer)
    (interval_value : String) (X : Table) (y : List ℝ) (oracle : FitOracle ℝ) :
    Except String Linearizer :=
  let cs := match l.cols with
    | none => columns X
    | some c => if c.isEmpty then columns X else c
  match fitCols l X y oracle interval_value cs with
  | .error e => .error e
  | .ok trs => .ok { l with transformations := some trs }

/-- `Linearizer.fit(X, y)`: `cols = self.cols or X.columns`, then per column
`preprocess(X[col], y, binary_label=…, bins=…, transform_y=…,
interval_value='mean', ignore_na=…)` followed by
`find_best_transformation(x_, y_, transformations=…, metric=…,
suppress_warning=…)`, storing the winning transformer (or `None`) into
`self.transformations`. -/
noncomputable def Linearizer.fit (l : Linearizer) (X : Table) (y : List ℝ)
    (oracle : FitOracle ℝ) : Except String Linearizer :=
  let cs := match l.cols with
    | none => columns X
    | some c => if c.isEmpty then columns X else c
  match fitCols l X y oracle "mean" cs with
  | .error e => .error e
  | .ok trs => .ok { l with transformations := some trs }

/-- The per-column loop of `Linearizer.transform`: columns mapped to `None`
pass through unchanged, mapped columns are replaced by
`trf.transform(X[col])` on the raw values. -/
noncomputable def transformCols :
    Table → List (String × Option (TransformerObj ℝ)) → Except String Table
  | X, [] => .ok X
  | X, (_, none) :: rest => transformCols X rest
  | X, (c, some trf) :: rest =>
    match getCol X c with
    | .error e => .error e
    | .ok xcol =>
      match trf.transform xcol with
      | .error e => .error e
      | .ok newcol => transformCols (setCol X c newcol) rest

/-- `Linearizer.transform(X)`: `check_is_fitted(self, 'transformations')`
raises the scikit-learn not-fitted error when `fit` has not set the
`transformations` attribute; otherwise replace each mapped column.  (`copy`
controls in-place mutation in pandas; in this functional model the returned
table is the same either way.) -/
noncomputable def Linearizer.transform (l : Linearizer) (X : Table) :
    Except String Table :=
  match l.transformations with
  | none => .error "This Linearizer instance is not fitted yet. Call fit with appropriate arguments before using this estimator."
  | some trs => transformCols X trs

/-! ## Theorems -/

/-- C9: every power-family shape with non-positive exponent n (`Inv` with
n = -1, `InvPower2` with n = -2) evaluates to `1 / (pow(a·x+b, -n) + ε)` with
ε = 1e-15, while every power-family shape with positive exponent (`Power2`,
`Power3`, `Power4`, `Sqrt` with n = 1/2) evaluates to `pow(a·x+b, n)`. -/
theorem C9_power_family_evaluation :
    (∀ x a b : ℝ, Transform.Inv.call x a b = 1 / ((a * x + b) + 1e-15))
  ∧ (∀ x a b : ℝ, Transform.InvPower2.call x a b = 1 / ((a * x + b) ^ (2 : ℕ) + 1e-15))
  ∧ (∀ x a b : ℝ, Transform.Power2.call x a b = (a * x + b) ^ (2 : ℕ))
  ∧ (∀ x a b : ℝ, Transform.Power3.call x a b = (a * x + b) ^ (3 : ℕ))
  ∧ (∀ x a b : ℝ, Transform.Power4.call x a b = (a * x + b) ^ (4 : ℕ))
  ∧ (∀ x a b : ℝ, Transform.Sqrt.call x a b = (a * x + b) ^ ((1 : ℝ) / 2)) := by
  refine ⟨fun x a b => ?_, fun x a b => ?_, fun x a b => ?_, fun x a b => ?_,
    fun x a b => ?_, fun x a b => ?_⟩ <;>
    simp only [Transform.Inv, Transform.InvPower2, Transform.Power2, Transform.Power3,
      Transform.Power4, Transform.Sqrt, Transform.powerCall]
  · norm_num [Real.rpow_one]
  · norm_num [Real.rpow_natCast]
  · norm_num [Real.rpow_natCast]
  · rw [if_pos (by norm_num : (0:ℚ) < 3),
      show (((3:ℚ)):ℝ) = ((3:ℕ):ℝ) by norm_num, Real.rpow_natCast]
  · rw [if_pos (by norm_num : (0:ℚ) < 4),
      show (((4:ℚ)):ℝ) = ((4:ℕ):ℝ) by norm_num, Real.rpow_natCast]
  · norm_num

/-- C8: unfitted usage is a hard error at both levels: a transformer whose
parameters are unset raises the not-fitted `ValueError` from
`BaseTransformer.transform`, a `Linearizer` without the fit-produced
`transformations` attribute raises the scikit-learn not-fitted error from
`check_is_fitted`, and `__init__` never sets that attribute. -/
theorem C8_not_fitted_hard_error :
    (∀ (t : TransformerObj ℝ) (x : List ℝ), t.params = none →
      t.transform x = .error "No parameter values, call the set_params method first with the fitted parameter value.")
  ∧ (∀ (l : Linearizer) (X : Table), l.transformations = none →
      l.transform X = .error "This Linearizer instance is not fitted yet. Call fit with appropriate arguments before using this estimator.")
  ∧ (∀ cols binary_label bins transform_y transformations metric min_delta
        ignore_na suppress_warning copyFlag,
      (Linearizer.init cols binary_label bins transform_y transformations
        metric min_delta ignore_na suppress_warning copyFlag).transformations = none) := by
  refine ⟨fun t x h => ?_, fun l X h => ?_, fun _ _ _ _ _ _ _ _ _ _ => rfl⟩
  · simp only [TransformerObj.transform, h]
  · simp only [Linearizer.transform, h]

/-- C8 witness: a concrete unfitted transformer instance and a concrete
just-constructed `Linearizer` both raise their not-fitted errors. -/
theorem C8_not_fitted_hard_error_witness :
    ((⟨Transform.Abs, none⟩ : TransformerObj ℝ).params = none
      ∧ (⟨Transform.Abs, none⟩ : TransformerObj ℝ).transform [1, 2]
          = .error "No parameter values, call the set_params method first with the fitted parameter value.")
  ∧ ((Linearizer.init none true 30 none none (.str "corr") 0.2 true true true).transformations = none
      ∧ (Linearizer.init none true 30 none none (.str "corr") 0.2 true true true).transform []
          = .error "This Linearizer instance is not fitted yet. Call fit with appropriate arguments before using this estimator.") :=
  ⟨⟨rfl, C8_not_fitted_hard_error.1 _ _ rfl⟩,
   ⟨C8_not_fitted_hard_error.2.2 none true 30 none none (.str "corr") 0.2 true true true,
    C8_not_fitted_hard_error.2.1 _ _ rfl⟩⟩

/-- C1: refuted on the code — the `min_delta` passed to `Linearizer.__init__`
has no effect whatsoever on the constructed estimator (it is accepted but
never stored, and `fit` calls `find_best_transformation` without a
`min_delta`, so the search always uses the function default `0.0`): two
constructions differing only in `min_delta` are identical, and a `Linearizer`
constructed with `min_delta = 1000` still accepts a transform whose metric
improvement is only `7`. -/
theorem C1_constructor_min_delta_ignored :
    (∀ cols binary_label bins transform_y transformations metric
        (d1 d2 : ℝ) ignore_na suppress_warning copyFlag,
        Linearizer.init cols binary_label bins transform_y transformations
          metric d1 ignore_na suppress_warning copyFlag
        = Linearizer.init cols binary_label bins transform_y transformations
          metric d2 ignore_na suppress_warning copyFlag)
  ∧ ((Linearizer.init (some ["a"]) false 30 none
        (some [.cls ⟨fun _ => true, fun _ _ _ => 7⟩])
        (.fn (fun a _ => a.headD 0)) 1000 false true true).fit
          [("a", [0])] [0] (fun _ _ _ => some (1, 1))
      = .ok { cols := some ["a"], bins := 30, binary_label := false,
              transform_y := none,
              cand_trfs := some [.cls ⟨fun _ => true, fun _ _ _ => 7⟩],
              metric := .fn (fun a _ => a.headD 0), ignore_na := false,
              suppress_warning := true, copy := true,
              transformations := some [("a",
                some ⟨⟨fun _ => true, fun _ _ _ => 7⟩, some (1, 1)⟩)] }) := by
  refine ⟨fun _ _ _ _ _ _ _ _ _ _ _ => rfl, ?_⟩
  simp only [Linearizer.init, Linearizer.fit, fitCols, getCol, columns, preprocess,
    find_best_transformation, resolveMetric, find_best_transformation_core,
    scanTransforms, instantiate, TransformerObj.set_params, TransformerClass.applyP,
    selectBest, selectMax, List.map, List.isEmpty, List.headD, List.find?,
    beq_self_eq_true]
  norm_num [selectMax]

/-- C2: refuted on the code — with the default catalog
(`transformations=None`, hence `DEFAULT_TRANSFORM`, a list of pre-built
instances), `find_best_transformation` raises `TypeError` at `trf = trf()`
instead of creating a fresh instance, because calling an instance invokes
`__call__(self, x, a, b)` with no arguments. -/
theorem C2_default_catalog_raises :
    find_best_transformation [1, 2, 3] [1, 3, 5] none (.str "corr") 0 true
      (fun _ _ _ => none)
      = .error "TypeError: __call__ missing 3 required positional arguments: x, a and b" :=
  rfl

/-- C10: `Linearizer.fit` hands `interval_value='mean'` to `preprocess`
unconditionally, so through the orchestrator a bucket interval is always
represented by its midpoint; the left-edge and right-edge representations are
nevertheless implemented in `as_positive_rate` (concrete runs shown, with
bucket keys differing from the midpoint run). -/
theorem C10_fit_interval_always_midpoint :
    (∀ (l : Linearizer) (X : Table) (y : List ℝ) (O : FitOracle ℝ),
        l.fit X y O = l.fitWithInterval "mean" X y O)
  ∧ (as_positive_rate (K := ℚ) [0,1,2,3] [0,1,0,1] 2 "left" = .ok ([0, 3/2], [1/2, 1/2]))
  ∧ (as_positive_rate (K := ℚ) [0,1,2,3] [0,1,0,1] 2 "right" = .ok ([3/2, 3], [1/2, 1/2]))
  ∧ (as_positive_rate (K := ℚ) [0,1,2,3] [0,1,0,1] 2 "mean" = .ok ([3/4, 9/4], [1/2, 1/2])) := by
  have h1 : check_binary_label (K := ℚ) [0,1,0,1] = .ok () := rfl
  have hmn : listMin (K := ℚ) [0,1,2,3] = 0 := by decide
  have hmx : listMax (K := ℚ) [0,1,2,3] = 3 := by decide
  have hi0 : cutIndex (K := ℚ) 0 3 2 0 = 0 := by
    norm_num [cutIndex, cutEdge, List.range_succ, List.find?]
  have hi1 : cutIndex (K := ℚ) 0 3 2 1 = 0 := by
    norm_num [cutIndex, cutEdge, List.range_succ, List.find?]
  have hi2 : cutIndex (K := ℚ) 0 3 2 2 = 1 := by
    norm_num [cutIndex, cutEdge, List.range_succ, List.find?]
  have hi3 : cutIndex (K := ℚ) 0 3 2 3 = 1 := by
    norm_num [cutIndex, cutEdge, List.range_succ, List.find?]
  have hbr : ¬ (([0,1,2,3] : List ℚ).dedup.length ≤ 2) := by decide
  refine ⟨fun l X y O => rfl, ?_, ?_, ?_⟩
  · have hreps : intervalReps (K := ℚ) "left" 0 3 2 [0,1,2,3] = .ok [0, 0, 3/2, 3/2] := by
      rw [intervalReps, if_pos rfl]
      simp only [List.map_cons, List.map_nil, hi0, hi1, hi2, hi3]
      norm_num [cutEdge]
    have h2 : uniqueSorted (K := ℚ) [0, 0, 3/2, 3/2] = [0, 3/2] := by
      norm_num [uniqueSorted, List.dedup_cons_of_mem, List.dedup_cons_of_not_mem,
        List.insertionSort, List.orderedInsert]
    rw [as_positive_rate, h1, if_neg hbr, hmn, hmx, hreps]
    simp only [groupbyMean, h2, List.map_cons, List.map_nil, groupMean,
      List.zip_cons_cons, List.zip_nil_right]
    norm_num [List.filter]
  · have hreps : intervalReps (K := ℚ) "right" 0 3 2 [0,1,2,3] = .ok [3/2, 3/2, 3, 3] := by
      rw [intervalReps, if_neg (by decide), if_pos rfl]
      simp only [List.map_cons, List.map_nil, hi0, hi1, hi2, hi3]
      norm_num [cutEdge]
    have h2 : uniqueSorted (K := ℚ) [3/2, 3/2, 3, 3] = [3/2, 3] := by
      norm_num [uniqueSorted, List.dedup_cons_of_mem, List.dedup_cons_of_not_mem,
        List.insertionSort, List.orderedInsert]
    rw [as_positive_rate, h1, if_neg hbr, hmn, hmx, hreps]
    simp only [groupbyMean, h2, List.map_cons, List.map_nil, groupMean,
      List.zip_cons_cons, List.zip_nil_right]
    norm_num [List.filter]
  · have hreps : intervalReps (K := ℚ) "mean" 0 3 2 [0,1,2,3] = .ok [3/4, 3/4, 9/4, 9/4] := by
      rw [intervalReps, if_neg (by decide), if_neg (by decide), if_pos rfl]
      simp only [List.map_cons, List.map_nil, hi0, hi1, hi2, hi3]
      norm_num [cutEdge]
    have h2 : uniqueSorted (K := ℚ) [3/4, 3/4, 9/4, 9/4] = [3/4, 9/4] := by
      norm_num [uniqueSorted, List.dedup_cons_of_mem, List.dedup_cons_of_not_mem,
        List.insertionSort, List.orderedInsert]
    rw [as_positive_rate, h1, if_neg hbr, hmn, hmx, hreps]
    simp only [groupbyMean, h2, List.map_cons, List.map_nil, groupMean,
      List.zip_cons_cons, List.zip_nil_right]
    norm_num [List.filter]

/-- C6: `as_positive_rate` with an integer `bins`: when the distinct values of
`x` number at most `bins`, every distinct value is its own bucket with value
the mean of `y` inside it (concrete run of the spec example included);
otherwise the range is partitioned into `bins` equal-width intervals
represented by left edge, right edge, or midpoint according to
`interval_value`, whose omitted default is `'mean'`. -/
theorem C6_bucketing_rule :
    (∀ (K : Type) [inst : LinearOrderedField K] (x y : List K) (bins : ℕ) (iv : String),
        check_binary_label y = .ok () → x.dedup.length ≤ bins →
        as_positive_rate x y bins iv
          = .ok (uniqueSorted x, (uniqueSorted x).map (groupMean x y)))
  ∧ (as_positive_rate (K := ℚ) [1,1,2,2,3,3] [0,1,0,1,1,1] 30 "mean"
        = .ok ([1, 2, 3], [1/2, 1/2, 1]))
  ∧ (∀ (K : Type) [inst : LinearOrderedField K] (x y : List K) (bins : ℕ),
        check_binary_label y = .ok () → bins < x.dedup.length →
        as_positive_rate x y bins "mean"
          = .ok (groupbyMean (x.map (fun v =>
              (cutEdge (listMin x) (listMax x) bins (cutIndex (listMin x) (listMax x) bins v)
                + cutEdge (listMin x) (listMax x) bins
                    (cutIndex (listMin x) (listMax x) bins v + 1)) / 2)) y))
  ∧ (∀ (K : Type) [inst : LinearOrderedField K] (x y : List K) (bins : ℕ),
        check_binary_label y = .ok () → bins < x.dedup.length →
        as_positive_rate x y bins "left"
          = .ok (groupbyMean (x.map (fun v =>
              cutEdge (listMin x) (listMax x) bins
                (cutIndex (listMin x) (listMax x) bins v))) y))
  ∧ (∀ (K : Type) [inst : LinearOrderedField K] (x y : List K) (bins : ℕ),
        check_binary_label y = .ok () → bins < x.dedup.length →
        as_positive_rate x y bins "right"
          = .ok (groupbyMean (x.map (fun v =>
              cutEdge (listMin x) (listMax x) bins
                (cutIndex (listMin x) (listMax x) bins v + 1))) y))
  ∧ (∀ (K : Type) [inst : LinearOrderedField K] (x y : List K) (bins : ℕ),
        as_positive_rate_default x y bins = as_positive_rate x y bins "mean") := by
  refine ⟨?_, ?_, ?_, ?_, ?_, fun K inst x y bins => rfl⟩
  · intro K inst x y bins iv hck hle
    rw [as_positive_rate, hck, if_pos hle, groupbyMean]
  · have h1 : check_binary_label (K := ℚ) [0,1,0,1,1,1] = .ok () := rfl
    have h2 : uniqueSorted (K := ℚ) [1,1,2,2,3,3] = [1, 2, 3] := by decide
    rw [as_positive_rate, h1, if_pos (by decide)]
    simp only [groupbyMean, h2, List.map_cons, List.map_nil, groupMean,
      List.zip_cons_cons, List.zip_nil_right]
    norm_num [List.filter]
  · intro K inst x y bins hck hlt
    rw [as_positive_rate, hck, if_neg (not_le.mpr hlt), intervalReps,
      if_neg (by decide), if_neg (by decide), if_pos rfl]
  · intro K inst x y bins hck hlt
    rw [as_positive_rate, hck, if_neg (not_le.mpr hlt), intervalReps, if_pos rfl]
  · intro K inst x y bins hck hlt
    rw [as_positive_rate, hck, if_neg (not_le.mpr hlt), intervalReps,
      if_neg (by decide), if_pos rfl]

set_option maxHeartbeats 1000000 in
/-- C6 witness: the two branch statements applied at concrete inputs, with
every hypothesis discharged there. -/
theorem C6_bucketing_rule_witness :
    (check_binary_label (K := ℚ) [0,1,0,1,1,1] = .ok ()
      ∧ ([1,1,2,2,3,3] : List ℚ).dedup.length ≤ 30
      ∧ as_positive_rate (K := ℚ) [1,1,2,2,3,3] [0,1,0,1,1,1] 30 "mean"
          = .ok (uniqueSorted (K := ℚ) [1,1,2,2,3,3],
              (uniqueSorted (K := ℚ) [1,1,2,2,3,3]).map
                (groupMean (K := ℚ) [1,1,2,2,3,3] [0,1,0,1,1,1])))
  ∧ (check_binary_label (K := ℚ) [0,1,0,1] = .ok ()
      ∧ 2 < ([0,1,2,3] : List ℚ).dedup.length
      ∧ as_positive_rate (K := ℚ) [0,1,2,3] [0,1,0,1] 2 "mean"
          = .ok (groupbyMean (([0,1,2,3] : List ℚ).map (fun v =>
              (cutEdge (listMin (K := ℚ) [0,1,2,3]) (listMax (K := ℚ) [0,1,2,3]) 2
                  (cutIndex (listMin (K := ℚ) [0,1,2,3]) (listMax (K := ℚ) [0,1,2,3]) 2 v)
                + cutEdge (listMin (K := ℚ) [0,1,2,3]) (listMax (K := ℚ) [0,1,2,3]) 2
                  (cutIndex (listMin (K := ℚ) [0,1,2,3]) (listMax (K := ℚ) [0,1,2,3]) 2 v + 1))
                / 2)) [0,1,0,1])) :=
  ⟨⟨rfl, by decide, C6_bucketing_rule.1 ℚ [1,1,2,2,3,3] [0,1,0,1,1,1] 30 "mean" rfl (by decide)⟩,
   ⟨rfl, by decide, C6_bucketing_rule.2.2.1 ℚ [0,1,2,3] [0,1,0,1] 2 rfl (by decide)⟩⟩

/-- C7 counterexample: `y = [0, 0]` has every element in the set of values 0
and 1, yet `check_binary_label` (and hence `as_positive_rate`) raises the
invalid-binary-label error, because the source demands
`set(y) == set([0, 1])` — both values must actually occur. -/
theorem C7_counterexample :
    check_binary_label (K := ℚ) [0, 0] = .error "The label must be binary 0 or 1."
  ∧ as_positive_rate (K := ℚ) [1, 2] [0, 0] 30 "mean"
      = .error "The label must be binary 0 or 1." :=
  ⟨rfl, rfl⟩

/-- Scan invariant: every candidate the catalog scan keeps carries fitted
parameters and its score, which is the metric of the transformed column
against the target and strictly exceeds `baseline + min_delta`. -/
theorem scanTransforms_sound {K : Type} [LinearOrderedField K]
    (x y : List K) (mf : List K → List K → K) (b δ : K) (O : FitOracle K) :
    ∀ (entries : List (CatalogEntry K)) (res : List (K × TransformerObj K)),
      scanTransforms x y mf b δ O entries = .ok res →
      ∀ p ∈ res, b + δ < p.1 ∧ ∃ (c : TransformerClass K) (pa pb : K),
        p.2 = ⟨c, some (pa, pb)⟩ ∧ p.1 = mf (c.applyP pa pb x) y := by
  intro entries
  induction entries with
  | nil =>
    intro res h p hp
    simp only [scanTransforms] at h
    cases h
    simp at hp
  | cons e rest ih =>
    intro res h p hp
    rcases he : instantiate e with s | trf
    · simp only [scanTransforms, he] at h
      exact Except.noConfusion h
    · simp only [scanTransforms, he] at h
      by_cases hv : trf.cls.validate_input x = false
      · rw [if_pos hv] at h
        exact ih res h p hp
      · rw [if_neg hv] at h
        rcases ho : O trf.cls x y with _ | est
        · simp only [ho] at h
          exact ih res h p hp
        · obtain ⟨ea, eb⟩ := est
          simp only [ho] at h
          rcases hs : scanTransforms x y mf b δ O rest with s | res2
          · simp only [hs] at h
            exact Except.noConfusion h
          · simp only [hs] at h
            injection h with h
            subst h
            by_cases hm : b + δ < mf ((trf.set_params (ea, eb)).cls.applyP ea eb x) y
            · rw [if_pos hm] at hp
              rcases List.mem_cons.mp hp with hpeq | hp2
              · subst hpeq
                exact ⟨hm, trf.cls, ea, eb, rfl, rfl⟩
              · exact ih res2 hs p hp2
            · rw [if_neg hm] at hp
              exact ih res2 hs p hp

/-- `selectMax p l` is `p` itself or one of `l`. -/
theorem selectMax_mem {K : Type} [LinearOrderedField K] :
    ∀ (l : List (K × TransformerObj K)) (p), selectMax p l ∈ p :: l := by
  intro l
  induction l with
  | nil =>
    intro p
    simp [selectMax]
  | cons q rest ih =>
    intro p
    simp only [selectMax]
    rcases List.mem_cons.mp (ih (if p.1 < q.1 then q else p)) with h | h
    · rw [h]
      by_cases hpq : p.1 < q.1
      · rw [if_pos hpq]
        exact List.mem_cons_of_mem _ (List.mem_cons_self _ _)
      · rw [if_neg hpq]
        exact List.mem_cons_self _ _
    · exact List.mem_cons_of_mem _ (List.mem_cons_of_mem _ h)

/-- The selected best candidate is a member of the candidate list. -/
theorem selectBest_mem {K : Type} [LinearOrderedField K]
    (l : List (K × TransformerObj K)) (p : K × TransformerObj K) :
    selectBest l = some p → p ∈ l := by
  cases l with
  | nil => intro h; simp [selectBest] at h
  | cons q rest =>
    intro h
    simp only [selectBest] at h
    injection h with h
    rw [← h]
    exact selectMax_mem rest q

/-- C3: whenever `find_best_transformation` returns a candidate pair
`(score, transform)`, the transform carries fitted parameters, the score is
the metric of the transformed `x` against `y`, and it strictly exceeds
`baseline + min_delta` where the baseline is the resolved metric on the
untransformed pair. -/
theorem C3_candidate_beats_baseline :
    ∀ (x y : List ℝ) (trfsArg : Option (List (CatalogEntry ℝ))) (marg : MetricArg)
      (mf : List ℝ → List ℝ → ℝ) (δ : ℝ) (sw : Bool) (O : FitOracle ℝ)
      (s : ℝ) (t : TransformerObj ℝ),
      resolveMetric marg = .ok mf →
      find_best_transformation x y trfsArg marg δ sw O = .ok (some (s, t)) →
      mf x y + δ < s ∧ ∃ pa pb, t.params = some (pa, pb)
        ∧ s = mf (t.cls.applyP pa pb x) y := by
  intro x y trfsArg marg mf δ sw O s t hres hrun
  simp only [find_best_transformation, hres] at hrun
  revert hrun
  generalize (match trfsArg with
    | none => Transform.DEFAULT_TRANSFORM
    | some l => if l.isEmpty then Transform.DEFAULT_TRANSFORM else l) = entries
  intro hrun
  simp only [find_best_transformation_core] at hrun
  rcases hs : scanTransforms x y mf (mf x y) δ O entries with e | res
  · rw [hs] at hrun
    exact absurd hrun (by simp)
  · rw [hs] at hrun
    injection hrun with hrun
    have hmem := selectBest_mem res (s, t) hrun
    have hp := scanTransforms_sound x y mf (mf x y) δ O entries res hs (s, t) hmem
    obtain ⟨hgt, c, pa, pb, ht, hsm⟩ := hp
    dsimp only at hgt ht hsm
    subst ht
    exact ⟨hgt, pa, pb, rfl, hsm⟩

/-- C3 witness: a concrete search run that returns a candidate, with both
hypotheses discharged concretely. -/
theorem C3_candidate_beats_baseline_witness :
    (resolveMetric (.fn (fun a _ => a.headD 0)) = .ok (fun a _ => a.headD 0)
      ∧ find_best_transformation [0] [0]
          (some [.cls ⟨fun _ => true, fun _ _ _ => 7⟩])
          (.fn (fun a _ => a.headD 0)) 0 true (fun _ _ _ => some (1, 1))
        = .ok (some (7, ⟨⟨fun _ => true, fun _ _ _ => 7⟩, some (1, 1)⟩)))
  ∧ (fun (a : List ℝ) (_ : List ℝ) => a.headD 0) [0] [0] + 0 < 7 := by
  have hrun : find_best_transformation [0] [0]
      (some [.cls ⟨fun _ => true, fun _ _ _ => 7⟩])
      (.fn (fun a _ => a.headD 0)) 0 true (fun _ _ _ => some (1, 1))
      = .ok (some (7, ⟨⟨fun _ => true, fun _ _ _ => 7⟩, some (1, 1)⟩)) := by
    simp only [find_best_transformation, resolveMetric, find_best_transformation_core,
      scanTransforms, instantiate, TransformerObj.set_params, TransformerClass.applyP,
      List.map, List.isEmpty, List.headD, selectBest, selectMax]
    norm_num [selectMax]
  exact ⟨⟨rfl, hrun⟩,
    (C3_candidate_beats_baseline [0] [0]
      (some [.cls ⟨fun _ => true, fun _ _ _ => 7⟩])
      (.fn (fun a _ => a.headD 0)) (fun a _ => a.headD 0) 0 true
      (fun _ _ _ => some (1, 1)) 7
      ⟨⟨fun _ => true, fun _ _ _ => 7⟩, some (1, 1)⟩ rfl hrun).1⟩

/-- Dropping a convergence-failing class from anywhere in the scanned catalog
does not change the scan's outcome: the candidate is skipped and the scan of
every remaining entry proceeds as if the entry were absent. -/
theorem scanTransforms_drop {K : Type} [LinearOrderedField K]
    (x y : List K) (mf : List K → List K → K) (b δ : K) (O : FitOracle K)
    (c : TransformerClass K) (hO : O c x y = none) :
    ∀ (l₁ l₂ : List (CatalogEntry K)),
      scanTransforms x y mf b δ O (l₁ ++ .cls c :: l₂)
        = scanTransforms x y mf b δ O (l₁ ++ l₂) := by
  intro l₁
  induction l₁ with
  | nil =>
    intro l₂
    simp only [List.nil_append, scanTransforms, instantiate]
    by_cases hv : c.validate_input x = false
    · rw [if_pos hv]
    · rw [if_neg hv, hO]
  | cons e l₁ ih =>
    intro l₂
    have ih2 : scanTransforms x y mf b δ O (l₁.append (CatalogEntry.cls c :: l₂))
        = scanTransforms x y mf b δ O (l₁.append l₂) := ih l₂
    simp only [List.cons_append, scanTransforms, ih2]

/-- C5: a per-candidate `curve_fit` convergence failure (`RuntimeError`,
modelled by the oracle returning `none` for that class) is recovered locally —
the search result is identical to running without that catalog entry, so the
rest of the catalog is scanned and no error reaches the caller. -/
theorem C5_fit_failure_dropped :
    ∀ (x y : List ℝ) (l₁ l₂ : List (CatalogEntry ℝ)) (c : TransformerClass ℝ)
      (f : List ℝ → List ℝ → ℝ) (δ : ℝ) (sw : Bool) (O : FitOracle ℝ),
      O c x y = none → l₁ ++ l₂ ≠ [] →
      find_best_transformation x y (some (l₁ ++ .cls c :: l₂)) (.fn f) δ sw O
        = find_best_transformation x y (some (l₁ ++ l₂)) (.fn f) δ sw O := by
  intro x y l₁ l₂ c f δ sw O hO hne
  have h1 : (l₁ ++ CatalogEntry.cls c :: l₂).isEmpty = false := by
    cases l₁ <;> rfl
  have h2 : (l₁ ++ l₂).isEmpty = false := by
    rcases h : l₁ ++ l₂ with _ | _
    · exact absurd h hne
    · rfl
  simp only [find_best_transformation, resolveMetric, h1, h2, Bool.false_eq_true,
    if_false, find_best_transformation_core]
  rw [scanTransforms_drop x y f (f x y) δ O c hO l₁ l₂]

/-- C5 witness: a concrete scan where the oracle fails to converge on the
dropped class, with both hypotheses discharged concretely. -/
theorem C5_fit_failure_dropped_witness :
    ((fun (_ : TransformerClass ℝ) (_ _ : List ℝ) => (none : Option (ℝ × ℝ)))
        ⟨fun _ => true, fun _ _ _ => 0⟩ [1] [1] = none)
  ∧ ([] ++ [CatalogEntry.cls (⟨fun _ => true, fun _ _ _ => 5⟩ : TransformerClass ℝ)]) ≠ []
  ∧ find_best_transformation [1] [1]
        (some ([] ++ .cls ⟨fun _ => true, fun _ _ _ => 0⟩
          :: [.cls ⟨fun _ => true, fun _ _ _ => 5⟩]))
        (.fn (fun _ _ => 0)) 0 true (fun _ _ _ => none)
      = find_best_transformation [1] [1]
        (some ([] ++ [.cls ⟨fun _ => true, fun _ _ _ => 5⟩]))
        (.fn (fun _ _ => 0)) 0 true (fun _ _ _ => none) :=
  ⟨rfl, by simp,
    C5_fit_failure_dropped [1] [1] [] [.cls ⟨fun _ => true, fun _ _ _ => 5⟩]
      ⟨fun _ => true, fun _ _ _ => 0⟩ (fun _ _ => 0) 0 true (fun _ _ _ => none)
      rfl (by simp)⟩

/-- `prodSum` on two cons cells. -/
theorem prodSum_cons {K : Type} [LinearOrderedField K] (a b : K) (u v : List K) :
    prodSum (a :: u) (b :: v) = a * b + prodSum u v := by
  simp [prodSum, List.zip_cons_cons]

/-- `prodSum u []` vanishes. -/
theorem prodSum_nil_right {K : Type} [LinearOrderedField K] (u : List K) :
    prodSum u [] = 0 := by
  cases u <;> rfl

/-- A sum of squares is nonnegative. -/
theorem prodSum_self_nonneg {K : Type} [LinearOrderedField K] :
    ∀ u : List K, 0 ≤ prodSum u u := by
  intro u
  induction u with
  | nil => simp [prodSum]
  | cons a u ih =>
    rw [prodSum_cons]
    exact add_nonneg (mul_self_nonneg a) ih

/-- Cauchy–Schwarz for the pairwise-product sum of two lists. -/
theorem prodSum_sq_le {K : Type} [LinearOrderedField K] :
    ∀ (u v : List K), prodSum u v ^ 2 ≤ prodSum u u * prodSum v v := by
  intro u
  induction u with
  | nil =>
    intro v
    simp [prodSum]
  | cons a u ih =>
    intro v
    cases v with
    | nil =>
      rw [prodSum_nil_right, prodSum_nil_right]
      simp
    | cons b v =>
      have hP := prodSum_self_nonneg u
      have hQ := prodSum_self_nonneg v
      have hIH := ih v
      rw [prodSum_cons, prodSum_cons, prodSum_cons]
      rcases eq_or_lt_of_le hQ with hQ0 | hQpos
      · have hS : prodSum u v = 0 := by
          nlinarith [sq_nonneg (prodSum u v)]
        rw [hS, ← hQ0]
        nlinarith [mul_self_nonneg b, hP]
      · nlinarith [sq_nonneg (a * prodSum v v - prodSum u v * b), hQpos, hIH,
          mul_nonneg (add_nonneg (mul_self_nonneg b) hQ) (sub_nonneg.mpr hIH)]

/-- `Σ (xᵢ-x̄)²` is nonnegative. -/
theorem ssxy_self_nonneg {K : Type} [LinearOrderedField K] (x : List K) :
    0 ≤ ssxy x x :=
  prodSum_self_nonneg _

/-- The coefficient of determination never exceeds 1 (on a degenerate
denominator it is the division-by-zero value 0). -/
theorem r_squared_le_one {K : Type} [LinearOrderedField K] (x y : List K) :
    r_squared x y ≤ 1 := by
  rw [r_squared]
  have hD : 0 ≤ ssxy x x * ssxy y y :=
    mul_nonneg (ssxy_self_nonneg x) (ssxy_self_nonneg y)
  rcases eq_or_lt_of_le hD with h0 | hpos
  · rw [← h0, div_zero]
    exact zero_le_one
  · exact (div_le_one hpos).mpr (prodSum_sq_le _ _)

/-- Sum of an affinely transformed list. -/
theorem sum_map_affine {K : Type} [LinearOrderedField K] (c d : K) :
    ∀ l : List K, (l.map (fun v => c * v + d)).sum = c * l.sum + (l.length : K) * d := by
  intro l
  induction l with
  | nil => simp
  | cons a l ih =>
    simp only [List.map_cons, List.sum_cons, ih, List.length_cons]
    push_cast
    ring

/-- Mean of an affinely transformed nonempty list. -/
theorem meanS_map_affine {K : Type} [LinearOrderedField K] (c d : K) (l : List K)
    (h : l ≠ []) : meanS (l.map (fun v => c * v + d)) = c * meanS l + d := by
  have hn : ((l.length : K)) ≠ 0 :=
    Nat.cast_ne_zero.mpr (fun h0 => h (List.length_eq_zero.mp h0))
  rw [meanS, meanS, List.length_map, sum_map_affine]
  field_simp
  ring

/-- Centering an affinely transformed nonempty list scales the centered
values. -/
theorem centered_map_affine {K : Type} [LinearOrderedField K] (c d : K)
    (l : List K) (h : l ≠ []) :
    centered (l.map (fun v => c * v + d)) = (centered l).map (fun v => c * v) := by
  rw [centered, centered, meanS_map_affine c d l h, List.map_map, List.map_map]
  refine List.map_congr_left ?_
  intro v _
  simp only [Function.comp]
  ring

/-- Scaling the right list scales the product sum. -/
theorem prodSum_map_mul_right {K : Type} [LinearOrderedField K] (cc : K) :
    ∀ u : List K, prodSum u (u.map (fun v => cc * v)) = cc * prodSum u u := by
  intro u
  induction u with
  | nil => simp [prodSum]
  | cons a u ih =>
    rw [List.map_cons, prodSum_cons, prodSum_cons, ih]
    ring

/-- Scaling both lists scales the product sum by the square. -/
theorem prodSum_map_mul_both {K : Type} [LinearOrderedField K] (cc : K) :
    ∀ u : List K, prodSum (u.map (fun v => cc * v)) (u.map (fun v => cc * v))
      = cc ^ 2 * prodSum u u := by
  intro u
  induction u with
  | nil => simp [prodSum]
  | cons a u ih =>
    rw [List.map_cons, prodSum_cons, prodSum_cons, ih]
    ring

/-- The centered cross sums of a perfectly affine pair. -/
theorem ssxy_affine {K : Type} [LinearOrderedField K] (x : List K) (c d : K)
    (h : x ≠ []) :
    ssxy x (x.map (fun v => c * v + d)) = c * ssxy x x
      ∧ ssxy (x.map (fun v => c * v + d)) (x.map (fun v => c * v + d))
          = c ^ 2 * ssxy x x := by
  constructor
  · rw [ssxy, centered_map_affine c d x h, prodSum_map_mul_right]
    rfl
  · rw [ssxy, centered_map_affine c d x h, prodSum_map_mul_both]
    rfl

/-- On a nondegenerate perfectly linear pair the coefficient of determination
is exactly 1. -/
theorem r_squared_affine {K : Type} [LinearOrderedField K] (x : List K)
    (c d : K) (hc : c ≠ 0) (hx : ssxy x x ≠ 0) :
    r_squared x (x.map (fun v => c * v + d)) = 1 := by
  have hne : x ≠ [] := by
    rintro rfl
    exact hx rfl
  obtain ⟨h1, h2⟩ := ssxy_affine x c d hne
  rw [r_squared, h1, h2, show (c * ssxy x x) ^ 2 = ssxy x x * (c ^ 2 * ssxy x x) by ring,
    div_self (mul_ne_zero hx (mul_ne_zero (pow_ne_zero 2 hc) hx))]

/-- When every catalog entry is a class and no fitted candidate's score
strictly exceeds `baseline + min_delta`, the scan keeps nothing. -/
theorem scanTransforms_none_qualify {K : Type} [LinearOrderedField K]
    (x y : List K) (mf : List K → List K → K) (b δ : K) (O : FitOracle K) :
    ∀ l : List (CatalogEntry K),
      (∀ e ∈ l, ∃ c, e = CatalogEntry.cls c) →
      (∀ (c : TransformerClass K) (pa pb : K), CatalogEntry.cls c ∈ l →
        O c x y = some (pa, pb) → mf (c.applyP pa pb x) y ≤ b + δ) →
      scanTransforms x y mf b δ O l = .ok [] := by
  intro l
  induction l with
  | nil =>
    intro _ _
    rfl
  | cons e rest ih =>
    intro hcls hnq
    obtain ⟨c, rfl⟩ := hcls e (List.mem_cons_self _ _)
    have hrest := ih (fun e he => hcls e (List.mem_cons_of_mem _ he))
      (fun c pa pb hm ho => hnq c pa pb (List.mem_cons_of_mem _ hm) ho)
    simp only [scanTransforms, instantiate]
    by_cases hv : c.validate_input x = false
    · rw [if_pos hv, hrest]
    · rw [if_neg hv]
      rcases ho : O c x y with _ | est
      · simp only [hrest]
      · obtain ⟨pa, pb⟩ := est
        simp only [hrest, TransformerObj.set_params]
        rw [if_neg (not_lt.mpr (hnq c pa pb (List.mem_cons_self _ _) ho))]

/-- C4 counterexample: on the code's default invocation (no catalog argument,
hence the instance-built `DEFAULT_TRANSFORM`) no candidate is ever fitted —
vacuously none qualifies — yet the call raises the instantiation `TypeError`
instead of returning the null result. -/
theorem C4_counterexample :
    find_best_transformation [1, 2] [2, 4] none (.str "corr") 0 true
      (fun _ _ _ => none)
      = .error "TypeError: __call__ missing 3 required positional arguments: x, a and b" :=
  rfl

/-- C4 (amended): provided the catalog entries are transformer classes (the
pre-built instances of the default catalog raise `TypeError` instead), if no
fitted candidate's score strictly exceeds `baseline + min_delta` then
`find_best_transformation` returns the explicit `(None, None)` null result
without raising; in particular, with `min_delta = 0`, the built-in `r2`
metric, and a perfectly linear nondegenerate `(x, y)`, it returns the
no-transformation result for every fitting oracle. -/
theorem C4_no_qualifier_returns_null :
    (∀ (x y : List ℝ) (l : List (CatalogEntry ℝ)) (mf : List ℝ → List ℝ → ℝ)
        (δ : ℝ) (sw : Bool) (O : FitOracle ℝ),
        (∀ e ∈ l, ∃ c, e = CatalogEntry.cls c) → l ≠ [] →
        (∀ (c : TransformerClass ℝ) (pa pb : ℝ), CatalogEntry.cls c ∈ l →
          O c x y = some (pa, pb) → mf (c.applyP pa pb x) y ≤ mf x y + δ) →
        find_best_transformation x y (some l) (.fn mf) δ sw O = .ok none)
  ∧ (∀ (x : List ℝ) (l : List (CatalogEntry ℝ)) (sw : Bool) (O : FitOracle ℝ)
        (c d : ℝ),
        (∀ e ∈ l, ∃ cc, e = CatalogEntry.cls cc) → l ≠ [] →
        c ≠ 0 → ssxy x x ≠ 0 →
        find_best_transformation x (x.map (fun v => c * v + d)) (some l)
          (.str "r2") 0 sw O = .ok none) := by
  constructor
  · intro x y l mf δ sw O hcls hne hnq
    have hE : l.isEmpty = false := by
      cases l
      · exact absurd rfl hne
      · rfl
    simp only [find_best_transformation, resolveMetric, hE, Bool.false_eq_true,
      if_false, find_best_transformation_core,
      scanTransforms_none_qualify x y mf (mf x y) δ O l hcls hnq]
    rfl
  · intro x l sw O c d hcls hne hc hx
    have hE : l.isEmpty = false := by
      cases l
      · exact absurd rfl hne
      · rfl
    have hbase : r_squared x (x.map (fun v => c * v + d)) = 1 :=
      r_squared_affine x c d hc hx
    have hnq : ∀ (cc : TransformerClass ℝ) (pa pb : ℝ), CatalogEntry.cls cc ∈ l →
        O cc x (x.map (fun v => c * v + d)) = some (pa, pb) →
        r_squared (cc.applyP pa pb x) (x.map (fun v => c * v + d))
          ≤ r_squared x (x.map (fun v => c * v + d)) + 0 := by
      intro cc pa pb _ _
      rw [hbase, add_zero]
      exact r_squared_le_one _ _
    have hres : resolveMetric (.str "r2") = .ok (r_squared (K := ℝ)) := rfl
    simp only [find_best_transformation, hres, hE, Bool.false_eq_true, if_false,
      find_best_transformation_core,
      scanTransforms_none_qualify x (x.map (fun v => c * v + d)) r_squared
        (r_squared x (x.map (fun v => c * v + d))) 0 O l hcls hnq]
    rfl

/-- C4 witness: both amended statements applied at concrete inputs — a
single-class catalog whose constant-zero metric never clears the threshold,
and a perfectly linear pair `y = 2·x + 3` under the `r2` metric — with every
hypothesis discharged there. -/
theorem C4_no_qualifier_returns_null_witness :
    ((∀ e ∈ [CatalogEntry.cls (⟨fun _ => true, fun _ _ _ => 0⟩ : TransformerClass ℝ)],
        ∃ c, e = CatalogEntry.cls c)
      ∧ ([CatalogEntry.cls (⟨fun _ => true, fun _ _ _ => 0⟩ : TransformerClass ℝ)] ≠ [])
      ∧ find_best_transformation [0] [0]
          (some [.cls ⟨fun _ => true, fun _ _ _ => 0⟩])
          (.fn (fun _ _ => 0)) 0 true (fun _ _ _ => some (1, 1)) = .ok none)
  ∧ (((2 : ℝ) ≠ 0)
      ∧ ssxy ([0, 1] : List ℝ) [0, 1] ≠ 0
      ∧ find_best_transformation [0, 1] (([0, 1] : List ℝ).map (fun v => 2 * v + 3))
          (some [.cls ⟨fun _ => true, fun _ _ _ => 0⟩])
          (.str "r2") 0 true (fun _ _ _ => some (1, 1)) = .ok none) := by
  have hssxy : ssxy ([0, 1] : List ℝ) [0, 1] ≠ 0 := by
    norm_num [ssxy, centered, meanS, prodSum, List.zip_cons_cons]
  refine ⟨⟨?_, by simp, ?_⟩, ⟨by norm_num, hssxy, ?_⟩⟩
  · rintro e he
    simp only [List.mem_singleton] at he
    exact ⟨_, he⟩
  · exact C4_no_qualifier_returns_null.1 [0] [0]
      [.cls ⟨fun _ => true, fun _ _ _ => 0⟩] (fun _ _ => 0) 0 true
      (fun _ _ _ => some (1, 1))
      (by rintro e he; simp only [List.mem_singleton] at he; exact ⟨_, he⟩)
      (by simp)
      (by intro cc pa pb _ _; norm_num)
  · exact C4_no_qualifier_returns_null.2 [0, 1]
      [.cls ⟨fun _ => true, fun _ _ _ => 0⟩] true (fun _ _ _ => some (1, 1)) 2 3
      (by rintro e he; simp only [List.mem_singleton] at he; exact ⟨_, he⟩)
      (by simp) (by norm_num) hssxy

/-- C7 (amended): the binary-label check passes iff the value set of `y` is
exactly the two-element set of 0 and 1 — every element is 0 or 1 AND both
occur; `as_positive_rate` raises the invalid-binary-label error on exactly
the complementary inputs (an invalid `interval_value` raises a different
message). -/
theorem C7_binary_label_check :
    ∀ (K : Type) [inst : LinearOrderedField K] (y : List K),
      (check_binary_label y = .ok ()
        ↔ (0 ∈ y ∧ 1 ∈ y ∧ ∀ v ∈ y, v = 0 ∨ v = 1))
    ∧ (∀ (x : List K) (bins : ℕ) (iv : String),
        as_positive_rate x y bins iv = .error "The label must be binary 0 or 1."
          ↔ ¬(0 ∈ y ∧ 1 ∈ y ∧ ∀ v ∈ y, v = 0 ∨ v = 1)) := by
  intro K inst y
  by_cases h : (0 : K) ∈ y ∧ (1 : K) ∈ y ∧ ∀ v ∈ y, v = 0 ∨ v = 1
  · refine ⟨iff_of_true (by rw [check_binary_label, if_pos h]) h, ?_⟩
    intro x bins iv
    refine iff_of_false ?_ (not_not_intro h)
    simp only [as_positive_rate, check_binary_label, if_pos h]
    by_cases hle : x.dedup.length ≤ bins
    · rw [if_pos hle]
      simp
    · rw [if_neg hle]
      rcases hiv : intervalReps iv (listMin x) (listMax x) bins x with e | reps
      · have he : e = "Only left, right, mean is supported." := by
          revert hiv
          rw [intervalReps]
          split_ifs <;> intro hiv <;> simp_all
        simp only [he]
        intro hcontra
        exact absurd (Except.error.inj hcontra) (by decide)
      · simp
  · refine ⟨iff_of_false (by rw [check_binary_label, if_neg h]; simp) h, ?_⟩
    intro x bins iv
    refine iff_of_true ?_ h
    simp only [as_positive_rate, check_binary_label, if_neg h]

